import Mathlib

/-!
Verification development for the palantir leveraged-trading simulator.

The repository ships the simulation driver (`palantir/simulation.py`) and a
test suite for the protocol engine; the engine module itself (`palantir/ithil.py`)
is not part of the sources at hand, so the engine operations below are modelled
from the specification (spec.md §3, §4.3, §8), with the tests in
`tests/test_ithil.py` fixing the concrete scenarios.  The simulation driver is
embedded directly from `palantir/simulation.py`.

Real-number quantities of the program are embedded as rationals (`ℚ`), which
realises the exact decimal-equivalent arithmetic the specification demands for
the §8 scenarios.
-/

/-- An opaque token identifier (spec §3). -/
abbrev Currency := String

/-- An opaque trader identity (spec §3). -/
abbrev Account := String

/-- Position identifiers are allocated monotonically (spec §3). -/
abbrev PositionId := Nat

/-- Modelled from the spec: `Percent` wraps a numeric percentage with an
operation `of(amount) = amount * percent / 100` (spec §3). -/
structure Percent where
  value : ℚ
deriving DecidableEq, Repr

/-- Modelled from the spec: `Percent(r).of(amount) = amount * r / 100`. -/
def Percent.of (pct : Percent) (amount : ℚ) : ℚ :=
  amount * pct.value / 100

/-- Lifecycle states of a position: `Open → Closed` or `Open → Liquidated`,
both terminal (spec §3). -/
inductive PositionState where
  | Open
  | Closed
  | Liquidated
deriving DecidableEq, Repr

/-- Modelled from the spec: the central position entity (spec §3).  The field
`owed_token` (the currency the principal is denominated in, i.e. `src_token`)
is read by the simulation driver (`simulation.py`, `position.owed_token`). -/
structure Position where
  owner : Account
  src_token : Currency
  dst_token : Currency
  collateral_token : Currency
  owed_token : Currency
  collateral : ℚ
  principal : ℚ
  entry_price_dst : ℚ
  entry_price_src : ℚ
  open_tick : Nat
deriving DecidableEq, Repr

/-- A price oracle: (currency, tick) → price (spec §4.2; total function model,
the driver sizes the horizon so lookups stay within the quote series). -/
abbrev Oracle := Currency → Nat → ℚ

/-- Modelled from the spec: the injected strategy functions of the engine
(spec §4.3) plus the configured maintenance-margin threshold, as a percent of
collateral (observed default 80, spec §4.3). -/
structure Strategies where
  apply_slippage : ℚ → ℚ
  calculate_fees : Position → ℚ
  calculate_interest_rate : Currency → Currency → ℚ → ℚ → ℚ
  calculate_liquidation_fee : Position → ℚ
  split_fees : ℚ → ℚ × ℚ
  maintenance_threshold_percent : ℚ

/-- Pointwise update of a finite map represented as a function. -/
def setFun {α β : Type} [DecidableEq α] (f : α → β) (a : α) (b : β) : α → β :=
  fun x => if x = a then b else f x

theorem setFun_same {α β : Type} [DecidableEq α] (f : α → β) (a : α) (b : β) :
    setFun f a b a = b := by
  simp [setFun]

theorem setFun_other {α β : Type} [DecidableEq α] (f : α → β) (a x : α) (b : β)
    (h : x ≠ a) : setFun f a b x = f x := by
  simp [setFun, h]

/-- Modelled from the spec: the engine's mutable state — the three per-currency
ledgers and the position index (spec §3). -/
structure EngineState where
  vaults : Currency → ℚ
  insurance_pool : Currency → ℚ
  governance_pool : Currency → ℚ
  positions : PositionId → Option (Position × PositionState)
  next_position_id : PositionId

/-- The engine's error taxonomy (spec §7). -/
inductive EngineError where
  | InsufficientLiquidity
  | SlippageExceeded
  | InvalidPositionState
deriving DecidableEq, Repr

/-- Modelled from the spec: unrealized P&L of a position at the current tick,
`principal * ((dst_now/dst_entry) / (src_now/src_entry) - 1)` (spec §4.3,
valuation formula). -/
def unrealizedPL (oracle : Oracle) (now : Nat) (p : Position) : ℚ :=
  p.principal *
    ((oracle p.dst_token now / p.entry_price_dst) /
      (oracle p.src_token now / p.entry_price_src) - 1)

/-- Clock ticks are hours (`main.py` runs the clock over hours), so a year is
8760 ticks. -/
def HOURS_IN_A_YEAR : ℚ := 8760

/-- Modelled from the spec: the elapsed fraction of a year between the open
tick and the current tick (spec §4.3, step 2 of settlement). -/
def elapsedYearFraction (open_tick now : Nat) : ℚ :=
  ((now : ℚ) - (open_tick : ℚ)) / HOURS_IN_A_YEAR

/-- Modelled from the spec: interest owed to the vault, the annualized rate
prorated over the holding period: `rate * principal * elapsed_fraction_of_year`
(spec §4.3, step 2; `ithil.calculate_interest` in the tests). -/
def calculateInterest (cfg : Strategies) (now : Nat) (p : Position) : ℚ :=
  cfg.calculate_interest_rate p.src_token p.dst_token p.collateral p.principal
    * p.principal * elapsedYearFraction p.open_tick now

/-- Modelled from the spec: liquidation-eligibility query.  Computes the
unrealized loss at the current tick and answers whether it is at or above the
maintenance-margin threshold (a configured percentage of collateral); never
mutates state; calling on a non-Open position is an error (spec §4.3).  The
state is returned unchanged alongside the answer to give the operation the
same shape as the mutating ones. -/
def canLiquidatePosition (cfg : Strategies) (oracle : Oracle) (now : Nat)
    (s : EngineState) (pid : PositionId) : Option Bool × EngineState :=
  match s.positions pid with
  | some (p, PositionState.Open) =>
      (some (decide (cfg.maintenance_threshold_percent / 100 * p.collateral
        ≤ -(unrealizedPL oracle now p))), s)
  | _ => (none, s)

/-- Modelled from the spec: voluntary settlement of an Open position
(spec §4.3, `close_position`):
1. compute the unrealized P&L;
2. compute the fee and the prorated interest;
3. solvent case (`-pl < collateral`): the trader receives `pl - fee -
   interest`, the vault earns the interest, and a positive fee is split
   between governance and insurance;
4. insolvent case (`-pl ≥ collateral`): the payout is capped at `-collateral`,
   no fee or interest is collected, and the shortfall `-pl - collateral` is
   debited from the insurance pool;
5. the position is marked Closed and `(trader_pl, 0)` is returned.
Any other position state fails with InvalidPositionState (spec §7). -/
def closePosition (cfg : Strategies) (oracle : Oracle) (now : Nat)
    (s : EngineState) (pid : PositionId) :
    Except EngineError (ℚ × ℚ) × EngineState :=
  match s.positions pid with
  | some (p, PositionState.Open) =>
      let pl := unrealizedPL oracle now p
      let fee := cfg.calculate_fees p
      let interest := calculateInterest cfg now p
      if -pl < p.collateral then
        let gi := cfg.split_fees fee
        (Except.ok (pl - fee - interest, 0),
          { s with
            vaults := setFun s.vaults p.collateral_token
              (s.vaults p.collateral_token + interest)
            governance_pool :=
              if 0 < fee then
                setFun s.governance_pool p.collateral_token
                  (s.governance_pool p.collateral_token + gi.1)
              else s.governance_pool
            insurance_pool :=
              if 0 < fee then
                setFun s.insurance_pool p.collateral_token
                  (s.insurance_pool p.collateral_token + gi.2)
              else s.insurance_pool
            positions := setFun s.positions pid (some (p, PositionState.Closed)) })
      else
        (Except.ok (-p.collateral, 0),
          { s with
            insurance_pool := setFun s.insurance_pool p.collateral_token
              (s.insurance_pool p.collateral_token - (-pl - p.collateral))
            positions := setFun s.positions pid (some (p, PositionState.Closed)) })
  | _ => (Except.error EngineError.InvalidPositionState, s)

/-- Modelled from the spec: forced settlement of an Open position
(spec §4.3, `liquidate_position`).  Same valuation and solvency branching as
`closePosition`, plus a liquidation fee deducted from whatever residual
collateral remains after absorbing the loss; when the residual is insufficient
the remainder is drawn from the insurance pool.  The fee is returned as
`liquidation_pl` and is not split via `split_fees`.  The position is marked
Liquidated. -/
def liquidatePosition (cfg : Strategies) (oracle : Oracle) (now : Nat)
    (s : EngineState) (pid : PositionId) :
    Except EngineError (ℚ × ℚ) × EngineState :=
  match s.positions pid with
  | some (p, PositionState.Open) =>
      let pl := unrealizedPL oracle now p
      let fee := cfg.calculate_fees p
      let interest := calculateInterest cfg now p
      let liq_fee := cfg.calculate_liquidation_fee p
      if -pl < p.collateral then
        let gi := cfg.split_fees fee
        let base := pl - fee - interest
        let residual := p.collateral + base
        let s₁ : EngineState :=
          { s with
            vaults := setFun s.vaults p.collateral_token
              (s.vaults p.collateral_token + interest)
            governance_pool :=
              if 0 < fee then
                setFun s.governance_pool p.collateral_token
                  (s.governance_pool p.collateral_token + gi.1)
              else s.governance_pool
            insurance_pool :=
              if 0 < fee then
                setFun s.insurance_pool p.collateral_token
                  (s.insurance_pool p.collateral_token + gi.2)
              else s.insurance_pool
            positions := setFun s.positions pid (some (p, PositionState.Liquidated)) }
        if liq_fee ≤ residual then
          (Except.ok (base - liq_fee, liq_fee), s₁)
        else
          (Except.ok (-p.collateral, liq_fee),
            { s₁ with
              insurance_pool := setFun s₁.insurance_pool p.collateral_token
                (s₁.insurance_pool p.collateral_token - (liq_fee - residual)) })
      else
        (Except.ok (-p.collateral, liq_fee),
          { s with
            insurance_pool := setFun s.insurance_pool p.collateral_token
              (s.insurance_pool p.collateral_token - (-pl - p.collateral) - liq_fee)
            positions := setFun s.positions pid (some (p, PositionState.Liquidated)) })
  | _ => (Except.error EngineError.InvalidPositionState, s)

/-- Modelled from the spec: opening a position (spec §4.3, `open_position`).
Fails with InsufficientLiquidity when the principal exceeds the vault balance
for `src_token`, and with SlippageExceeded when the post-slippage entry price
deviates from the oracle price by more than `max_slippage_percent`; otherwise
captures entry prices (dst through `apply_slippage`), allocates the next id
and registers the position Open. -/
def openPosition (cfg : Strategies) (oracle : Oracle) (now : Nat)
    (s : EngineState) (trader : Account)
    (src_token dst_token collateral_token : Currency)
    (collateral principal max_slippage_percent : ℚ) :
    Except EngineError PositionId × EngineState :=
  if s.vaults src_token < principal then
    (Except.error EngineError.InsufficientLiquidity, s)
  else
    let price := oracle dst_token now
    let entry_dst := cfg.apply_slippage price
    if max_slippage_percent / 100 * price < |entry_dst - price| then
      (Except.error EngineError.SlippageExceeded, s)
    else
      let p : Position :=
        { owner := trader
          src_token := src_token
          dst_token := dst_token
          collateral_token := collateral_token
          owed_token := src_token
          collateral := collateral
          principal := principal
          entry_price_dst := entry_dst
          entry_price_src := oracle src_token now
          open_tick := now }
      (Except.ok s.next_position_id,
        { s with
          positions := setFun s.positions s.next_position_id
            (some (p, PositionState.Open))
          next_position_id := s.next_position_id + 1 })

/-!
## The simulation driver

Embedded from `palantir/simulation.py`.  A trader is reduced to the state the
driver touches: its per-currency liquidity and the list of its active position
ids (`trader.liquidity`, `trader.active_positions`).  The agent's decision
policy `trader.trade()` is an external collaborator (spec §1, §6) and is
injected as an abstract state transformer, as is the engine's liquidate
operation (the driver holds the engine by reference).  Engine errors raised
inside the loop propagate and halt the run (`Option.none`); the driver never
swallows them (spec §7).
-/

/-- Modelled from the spec: the discrete clock (spec §4.1, `palantir/clock.py`
is not among the sources): a fixed horizon and a current tick counter. -/
structure Clock where
  horizon : Nat
  time : Nat
deriving DecidableEq, Repr

/-- Modelled from the spec: `step()` advances the counter by one and returns
whether the horizon has not yet been exhausted (spec §4.1). -/
def Clock.step (c : Clock) : Bool × Clock :=
  (decide (c.time + 1 < c.horizon), { c with time := c.time + 1 })

/-- The slice of a trader's state the driver reads and writes
(`simulation.py`: `trader.liquidity`, `trader.active_positions`). -/
structure TraderState where
  liquidity : Currency → ℚ
  active_positions : List PositionId

/-- An injected trader decision policy: given the tick and the trader's index
in registration order, `trader.trade()` may update the trader and the engine
through the engine's public operations. -/
abbrev TradeFn := Nat → Nat → TraderState → EngineState → TraderState × EngineState

/-- The engine's liquidate operation as the driver sees it. -/
abbrev LiqFn := Nat → EngineState → PositionId →
  Except EngineError (ℚ × ℚ) × EngineState

/-- The driver calls the engine's own `liquidate_position`. -/
def engineLiq (cfg : Strategies) (oracle : Oracle) : LiqFn :=
  fun now e pid => liquidatePosition cfg oracle now e pid

/-- Observable control-flow events of one simulation run: the clock tick, a
trader (by registration index) taking its turn, a liquidation-eligibility
check on a position with its outcome, and a liquidation. -/
inductive SimEvent where
  | tick (t : Nat)
  | act (i : Nat)
  | check (i : Nat) (pid : PositionId) (eligible : Bool)
  | liquidate (i : Nat) (pid : PositionId)
deriving DecidableEq, Repr

/-- The driver's sole write to a trader outside the engine
(`simulation.py` line 37): `trader.liquidity[position.owed_token] += trader_pl`. -/
def creditTrader (tr : TraderState) (cur : Currency) (amount : ℚ) : TraderState :=
  { tr with liquidity := setFun tr.liquidity cur (tr.liquidity cur + amount) }

/-- The inner loop of `Simulation.run` (`simulation.py` lines 33-38): for each
of the acting trader's active positions, query `can_liquidate_position`; when
it answers true, read the position, call `liquidate_position`, and credit the
returned `trader_pl` to the trader's liquidity for the position's
`owed_token`.  The returned `liquidator_pl` is not used.  An engine error
halts the run. -/
def sweepPositions (cfg : Strategies) (oracle : Oracle) (liq : LiqFn)
    (now i : Nat) :
    List PositionId → TraderState → EngineState →
    Option (TraderState × EngineState) × List SimEvent
  | [], tr, e => (some (tr, e), [])
  | pid :: rest, tr, e =>
      match (canLiquidatePosition cfg oracle now e pid).1 with
      | none => (none, [])
      | some false =>
          let k := sweepPositions cfg oracle liq now i rest tr e
          (k.1, SimEvent.check i pid false :: k.2)
      | some true =>
          match e.positions pid with
          | none => (none, [SimEvent.check i pid true])
          | some pr =>
              match liq now e pid with
              | (Except.error _, _) => (none, [SimEvent.check i pid true])
              | (Except.ok tlpl, e') =>
                  let tr' := creditTrader tr pr.1.owed_token tlpl.1
                  let k := sweepPositions cfg oracle liq now i rest tr' e'
                  (k.1, SimEvent.check i pid true ::
                    SimEvent.liquidate i pid :: k.2)

/-- One trader's turn (`simulation.py` lines 31-38): `trader.trade()`, then
the liquidation sweep over that trader's own active positions. -/
def traderTurn (cfg : Strategies) (oracle : Oracle) (trade : TradeFn)
    (liq : LiqFn) (now i : Nat) (tr : TraderState) (e : EngineState) :
    Option (TraderState × EngineState) × List SimEvent :=
  let te := trade now i tr e
  let k := sweepPositions cfg oracle liq now i te.1.active_positions te.1 te.2
  (k.1, SimEvent.act i :: k.2)

/-- The per-tick body of `Simulation.run`: the traders take their turns in
registration order, threading the engine state. -/
def tickTraders (cfg : Strategies) (oracle : Oracle) (trade : TradeFn)
    (liq : LiqFn) (now : Nat) :
    Nat → List TraderState → EngineState →
    Option (List TraderState × EngineState) × List SimEvent
  | _, [], e => (some ([], e), [])
  | i, tr :: rest, e =>
      match traderTurn cfg oracle trade liq now i tr e with
      | (none, evs) => (none, evs)
      | (some (tr', e'), evs) =>
          let k := tickTraders cfg oracle trade liq now (i + 1) rest e'
          ((k.1.map fun pr => (tr' :: pr.1, pr.2)), evs ++ k.2)

/-- The `while self.clock.step():` loop of `Simulation.run`, unrolled on a
fuel argument (the loop makes at most `horizon + 1` clock steps; exhausted
fuel answers `none` and is never hit when started through `simRun`). -/
def runAux (cfg : Strategies) (oracle : Oracle) (trade : TradeFn)
    (liq : LiqFn) :
    Nat → Clock → List TraderState → EngineState →
    Option (Clock × List TraderState × EngineState) × List SimEvent
  | 0, _, _, _ => (none, [])
  | fuel + 1, c, trs, e =>
      let sc := Clock.step c
      if sc.1 then
        match tickTraders cfg oracle trade liq sc.2.time 0 trs e with
        | (none, evs) => (none, SimEvent.tick sc.2.time :: evs)
        | (some (trs', e'), evs) =>
            let k := runAux cfg oracle trade liq fuel sc.2 trs' e'
            (k.1, SimEvent.tick sc.2.time :: (evs ++ k.2))
      else
        (some (sc.2, trs, e), [])

/-- `Simulation.run`, embedded from `simulation.py`: loop while the clock
still steps, each iteration running the per-tick body at the advanced tick. -/
def simRun (cfg : Strategies) (oracle : Oracle) (trade : TradeFn) (liq : LiqFn)
    (c : Clock) (trs : List TraderState) (e : EngineState) :
    Option (Clock × List TraderState × EngineState) × List SimEvent :=
  runAux cfg oracle trade liq (c.horizon + 1) c trs e

/-!
## Concrete fixtures

Mirroring the scenarios of `tests/test_ithil.py`: a DAI/ETH position with
collateral 100 and principal 1000, entry prices captured at tick 0, settled at
tick 1. -/

/-- The strategy bundle of the zero-fee tests: no slippage, no fees, no
interest, no liquidation fee, fees (if any) all to insurance, 80% maintenance
threshold. -/
def zeroStrategies : Strategies :=
  { apply_slippage := fun price => price
    calculate_fees := fun _ => 0
    calculate_interest_rate := fun _ _ _ _ => 0
    calculate_liquidation_fee := fun _ => 0
    split_fees := fun fees => (0, fees)
    maintenance_threshold_percent := 80 }

/-- DAI stable at 1; ETH at 4400 on tick 0 and at `ethNow` afterwards. -/
def daiEthOracle (ethNow : ℚ) : Oracle := fun c t =>
  if c = "eth" then (if t = 0 then 4400 else ethNow) else 1

/-- The test position: DAI/ETH, collateral 100, principal 1000 (leverage x10),
opened at tick 0 with entry prices 4400 (ETH) and 1 (DAI). -/
def testPosition : Position :=
  { owner := "0xabcd"
    src_token := "dai"
    dst_token := "eth"
    collateral_token := "dai"
    owed_token := "dai"
    collateral := 100
    principal := 1000
    entry_price_dst := 4400
    entry_price_src := 1
    open_tick := 0 }

/-- The test engine state: DAI vault 750000, DAI insurance 1000, empty
governance pool, the test position open under id 0. -/
def testState : EngineState :=
  { vaults := fun _ => 750000
    insurance_pool := fun _ => 1000
    governance_pool := fun _ => 0
    positions := fun pid =>
      if pid = 0 then some (testPosition, PositionState.Open) else none
    next_position_id := 1 }

/-!
## The claims
-/

/-- C1: for every position closed voluntarily while insolvent (loss at or
above the collateral), `close_position` returns trader_pl = −collateral and
liquidation_pl = 0, the insurance pool for the collateral token decreases by
exactly loss − collateral, and no fee or interest is collected: the governance
pool and the vaults are unchanged, regardless of the fee strategy. -/
theorem close_position_insolvent_loss
    (cfg : Strategies) (oracle : Oracle) (now : Nat) (s : EngineState)
    (pid : PositionId) (p : Position)
    (hpos : s.positions pid = some (p, PositionState.Open))
    (hloss : p.collateral ≤ -(unrealizedPL oracle now p)) :
    (closePosition cfg oracle now s pid).1 = Except.ok (-p.collateral, 0)
    ∧ (closePosition cfg oracle now s pid).2.insurance_pool p.collateral_token
        = s.insurance_pool p.collateral_token
          - (-(unrealizedPL oracle now p) - p.collateral)
    ∧ (closePosition cfg oracle now s pid).2.governance_pool = s.governance_pool
    ∧ (closePosition cfg oracle now s pid).2.vaults = s.vaults := by
  have hnlt : ¬ (-(unrealizedPL oracle now p) < p.collateral) := not_lt.mpr hloss
  simp only [closePosition, hpos, if_neg hnlt]
  simp [setFun]

/-- Witness for C1: the test position after a 12% ETH drop carries a loss of
120 ≥ 100 = collateral; the voluntary close pays out −100, charges insurance
20, and leaves governance and vaults untouched. -/
theorem close_position_insolvent_loss_witness :
    (testState.positions 0 = some (testPosition, PositionState.Open)
      ∧ testPosition.collateral
          ≤ -(unrealizedPL (daiEthOracle 3872) 1 testPosition))
    ∧ ((closePosition zeroStrategies (daiEthOracle 3872) 1 testState 0).1
        = Except.ok (-testPosition.collateral, 0)
      ∧ (closePosition zeroStrategies (daiEthOracle 3872) 1 testState 0).2.insurance_pool
            testPosition.collateral_token
          = testState.insurance_pool testPosition.collateral_token
            - (-(unrealizedPL (daiEthOracle 3872) 1 testPosition)
              - testPosition.collateral)
      ∧ (closePosition zeroStrategies (daiEthOracle 3872) 1 testState 0).2.governance_pool
          = testState.governance_pool
      ∧ (closePosition zeroStrategies (daiEthOracle 3872) 1 testState 0).2.vaults
          = testState.vaults) :=
  ⟨⟨rfl, by
      have h : ("dai" : String) ≠ "eth" := by decide
      norm_num [unrealizedPL, testPosition, daiEthOracle, h]⟩,
    close_position_insolvent_loss zeroStrategies (daiEthOracle 3872) 1 testState 0
      testPosition rfl (by
        have h : ("dai" : String) ≠ "eth" := by decide
        norm_num [unrealizedPL, testPosition, daiEthOracle, h])⟩

theorem dai_ne_eth : ("dai" : String) ≠ "eth" := by decide

/-- C2: closing a solvent position under zero fees and zero interest after a
`dst_token` price rise of r% (stable `src_token`) pays the trader exactly
`Percent(r).of(principal)` with liquidation_pl = 0 and leaves the vault and
insurance-pool balances for the collateral token unchanged. -/
theorem close_position_solvent_profit
    (cfg : Strategies) (oracle : Oracle) (now : Nat) (s : EngineState)
    (pid : PositionId) (p : Position) (r : ℚ)
    (hpos : s.positions pid = some (p, PositionState.Open))
    (hr : 0 ≤ r)
    (hP : 0 ≤ p.principal)
    (hC : 0 < p.collateral)
    (hsrc : oracle p.src_token now = p.entry_price_src)
    (hsrc0 : p.entry_price_src ≠ 0)
    (hdst : oracle p.dst_token now = p.entry_price_dst * (1 + r / 100))
    (hdst0 : p.entry_price_dst ≠ 0)
    (hfee : cfg.calculate_fees p = 0)
    (hrate : cfg.calculate_interest_rate p.src_token p.dst_token p.collateral
        p.principal = 0) :
    (closePosition cfg oracle now s pid).1
      = Except.ok (Percent.of ⟨r⟩ p.principal, 0)
    ∧ (closePosition cfg oracle now s pid).2.vaults p.collateral_token
        = s.vaults p.collateral_token
    ∧ (closePosition cfg oracle now s pid).2.insurance_pool p.collateral_token
        = s.insurance_pool p.collateral_token := by
  have hpl : unrealizedPL oracle now p = p.principal * r / 100 := by
    rw [unrealizedPL, hsrc, hdst]
    rw [div_self hsrc0, div_one, mul_comm p.entry_price_dst, mul_div_assoc,
      div_self hdst0, mul_one]
    ring
  have hnn : 0 ≤ p.principal * r / 100 := by positivity
  have hsolv : -(unrealizedPL oracle now p) < p.collateral := by
    rw [hpl]; linarith
  have hint : calculateInterest cfg now p = 0 := by
    rw [calculateInterest, hrate]; ring
  simp only [closePosition, hpos, if_pos hsolv, hfee, hint]
  refine ⟨?_, ?_, ?_⟩
  · rw [hpl]
    simp [Percent.of]
  · simp [setFun]
  · simp

/-- Witness for C2: a 10% ETH rise against the test position (principal 1000)
pays the trader `Percent(10).of(1000)` and changes no ledger. -/
theorem close_position_solvent_profit_witness :
    (testState.positions 0 = some (testPosition, PositionState.Open)
      ∧ daiEthOracle 4840 testPosition.src_token 1 = testPosition.entry_price_src
      ∧ daiEthOracle 4840 testPosition.dst_token 1
          = testPosition.entry_price_dst * (1 + (10 : ℚ) / 100))
    ∧ ((closePosition zeroStrategies (daiEthOracle 4840) 1 testState 0).1
        = Except.ok (Percent.of ⟨10⟩ testPosition.principal, 0)
      ∧ (closePosition zeroStrategies (daiEthOracle 4840) 1 testState 0).2.vaults
            testPosition.collateral_token
          = testState.vaults testPosition.collateral_token
      ∧ (closePosition zeroStrategies (daiEthOracle 4840) 1 testState 0).2.insurance_pool
            testPosition.collateral_token
          = testState.insurance_pool testPosition.collateral_token) :=
  ⟨⟨rfl, by simp [daiEthOracle, testPosition, dai_ne_eth],
      by norm_num [daiEthOracle, testPosition]⟩,
    close_position_solvent_profit zeroStrategies (daiEthOracle 4840) 1 testState 0
      testPosition 10 rfl (by norm_num) (by norm_num [testPosition])
      (by norm_num [testPosition])
      (by simp [daiEthOracle, testPosition, dai_ne_eth])
      (by norm_num [testPosition])
      (by norm_num [daiEthOracle, testPosition])
      (by norm_num [testPosition]) rfl rfl⟩

/-- C3: for an Open position, `can_liquidate_position` answers false when the
unrealized loss is strictly below the configured maintenance-margin share of
collateral and true when the loss is at or above it. -/
theorem can_liquidate_threshold
    (cfg : Strategies) (oracle : Oracle) (now : Nat) (s : EngineState)
    (pid : PositionId) (p : Position)
    (hpos : s.positions pid = some (p, PositionState.Open)) :
    (-(unrealizedPL oracle now p)
        < cfg.maintenance_threshold_percent / 100 * p.collateral →
      (canLiquidatePosition cfg oracle now s pid).1 = some false)
    ∧ (cfg.maintenance_threshold_percent / 100 * p.collateral
        ≤ -(unrealizedPL oracle now p) →
      (canLiquidatePosition cfg oracle now s pid).1 = some true) := by
  constructor
  · intro h
    simp only [canLiquidatePosition, hpos]
    simp [not_le.mpr h]
  · intro h
    simp only [canLiquidatePosition, hpos]
    simp [h]

/-- Witness for C3 at the default 80% threshold on collateral 100: a loss of
50 is not liquidatable, losses of 80 and 120 are. -/
theorem can_liquidate_threshold_witness :
    (-(unrealizedPL (daiEthOracle 4180) 1 testPosition)
        < zeroStrategies.maintenance_threshold_percent / 100
          * testPosition.collateral
      ∧ (canLiquidatePosition zeroStrategies (daiEthOracle 4180) 1 testState 0).1
          = some false)
    ∧ (zeroStrategies.maintenance_threshold_percent / 100
          * testPosition.collateral
        ≤ -(unrealizedPL (daiEthOracle 4048) 1 testPosition)
      ∧ (canLiquidatePosition zeroStrategies (daiEthOracle 4048) 1 testState 0).1
          = some true)
    ∧ (zeroStrategies.maintenance_threshold_percent / 100
          * testPosition.collateral
        ≤ -(unrealizedPL (daiEthOracle 3872) 1 testPosition)
      ∧ (canLiquidatePosition zeroStrategies (daiEthOracle 3872) 1 testState 0).1
          = some true) :=
  ⟨⟨by norm_num [unrealizedPL, testPosition, daiEthOracle, zeroStrategies,
        dai_ne_eth],
    (can_liquidate_threshold zeroStrategies (daiEthOracle 4180) 1 testState 0
        testPosition rfl).1
      (by norm_num [unrealizedPL, testPosition, daiEthOracle, zeroStrategies,
        dai_ne_eth])⟩,
   ⟨by norm_num [unrealizedPL, testPosition, daiEthOracle, zeroStrategies,
        dai_ne_eth],
    (can_liquidate_threshold zeroStrategies (daiEthOracle 4048) 1 testState 0
        testPosition rfl).2
      (by norm_num [unrealizedPL, testPosition, daiEthOracle, zeroStrategies,
        dai_ne_eth])⟩,
   ⟨by norm_num [unrealizedPL, testPosition, daiEthOracle, zeroStrategies,
        dai_ne_eth],
    (can_liquidate_threshold zeroStrategies (daiEthOracle 3872) 1 testState 0
        testPosition rfl).2
      (by norm_num [unrealizedPL, testPosition, daiEthOracle, zeroStrategies,
        dai_ne_eth])⟩⟩

/-- Zero strategies except a flat liquidation fee of 1 (the liquidation
test's configuration). -/
def liqFeeStrategies : Strategies :=
  { zeroStrategies with calculate_liquidation_fee := fun _ => 1 }

/-- C4: liquidating an eligible, solvent position whose residual collateral
after absorbing the loss covers the liquidation fee returns liquidation_pl
equal to `calculate_liquidation_fee(position)` and trader_pl equal to
−(loss capped at collateral + liquidation fee); the liquidation fee is not
passed through `split_fees` — the governance and insurance pools are
untouched.  (Fee and interest strategies return 0, as in the scenario the
claim is drawn from.) -/
theorem liquidate_position_fee_attribution
    (cfg : Strategies) (oracle : Oracle) (now : Nat) (s : EngineState)
    (pid : PositionId) (p : Position)
    (hpos : s.positions pid = some (p, PositionState.Open))
    (helig : (canLiquidatePosition cfg oracle now s pid).1 = some true)
    (hfee : cfg.calculate_fees p = 0)
    (hrate : cfg.calculate_interest_rate p.src_token p.dst_token p.collateral
        p.principal = 0)
    (hsolv : -(unrealizedPL oracle now p) < p.collateral)
    (hcov : cfg.calculate_liquidation_fee p
        ≤ p.collateral + unrealizedPL oracle now p) :
    (liquidatePosition cfg oracle now s pid).1
      = Except.ok (-(min (-(unrealizedPL oracle now p)) p.collateral
          + cfg.calculate_liquidation_fee p), cfg.calculate_liquidation_fee p)
    ∧ (liquidatePosition cfg oracle now s pid).2.governance_pool
        = s.governance_pool
    ∧ (liquidatePosition cfg oracle now s pid).2.insurance_pool
        = s.insurance_pool := by
  have hmin : min (-(unrealizedPL oracle now p)) p.collateral
      = -(unrealizedPL oracle now p) := min_eq_left (le_of_lt hsolv)
  have hint : calculateInterest cfg now p = 0 := by
    rw [calculateInterest, hrate]; ring
  have hok : -(min (-(unrealizedPL oracle now p)) p.collateral
      + cfg.calculate_liquidation_fee p)
      = unrealizedPL oracle now p - cfg.calculate_liquidation_fee p := by
    rw [hmin]; ring
  simp only [liquidatePosition, hpos, if_pos hsolv, hfee, hint, sub_zero]
  rw [if_pos hcov]
  refine ⟨?_, by simp, by simp⟩
  rw [hok]

/-- Witness for C4: an 8% ETH drop (loss 80 on collateral 100) is eligible at
the 80% threshold; with liquidation fee 1 the trader is charged 81 and the
liquidator receives 1, the pools untouched. -/
theorem liquidate_position_fee_attribution_witness :
    ((canLiquidatePosition liqFeeStrategies (daiEthOracle 4048) 1 testState 0).1
        = some true
      ∧ -(unrealizedPL (daiEthOracle 4048) 1 testPosition)
          < testPosition.collateral
      ∧ liqFeeStrategies.calculate_liquidation_fee testPosition
          ≤ testPosition.collateral
            + unrealizedPL (daiEthOracle 4048) 1 testPosition)
    ∧ ((liquidatePosition liqFeeStrategies (daiEthOracle 4048) 1 testState 0).1
        = Except.ok
            (-(min (-(unrealizedPL (daiEthOracle 4048) 1 testPosition))
                testPosition.collateral
              + liqFeeStrategies.calculate_liquidation_fee testPosition),
             liqFeeStrategies.calculate_liquidation_fee testPosition)
      ∧ (liquidatePosition liqFeeStrategies (daiEthOracle 4048) 1 testState 0).2.governance_pool
          = testState.governance_pool
      ∧ (liquidatePosition liqFeeStrategies (daiEthOracle 4048) 1 testState 0).2.insurance_pool
          = testState.insurance_pool) :=
  ⟨⟨by norm_num [canLiquidatePosition, testState, testPosition, unrealizedPL,
      daiEthOracle, liqFeeStrategies, zeroStrategies, dai_ne_eth],
    by norm_num [unrealizedPL, testPosition, daiEthOracle, dai_ne_eth],
    by norm_num [unrealizedPL, testPosition, daiEthOracle, liqFeeStrategies,
      zeroStrategies, dai_ne_eth]⟩,
    liquidate_position_fee_attribution liqFeeStrategies (daiEthOracle 4048) 1
      testState 0 testPosition rfl
      (by norm_num [canLiquidatePosition, testState, testPosition, unrealizedPL,
        daiEthOracle, liqFeeStrategies, zeroStrategies, dai_ne_eth])
      rfl rfl
      (by norm_num [unrealizedPL, testPosition, daiEthOracle, dai_ne_eth])
      (by norm_num [unrealizedPL, testPosition, daiEthOracle, liqFeeStrategies,
        zeroStrategies, dai_ne_eth])⟩

/-- The test state after its position reached a terminal state. -/
def closedState : EngineState :=
  { testState with
    positions := fun pid =>
      if pid = 0 then some (testPosition, PositionState.Closed) else none }

/-- C5: a position in a terminal state (Closed or Liquidated) rejects both
`close_position` and `liquidate_position` with InvalidPositionState, the whole
engine state (all three ledgers included) left untouched; an Open position is
marked Closed by close and Liquidated by liquidate — the two terminal states
are distinct, so each position undergoes at most one terminal transition and
close and liquidate are mutually exclusive. -/
theorem terminal_state_idempotence
    (cfg : Strategies) (oracle : Oracle) (now : Nat) (s : EngineState)
    (pid : PositionId) (p : Position) (st : PositionState)
    (hpos : s.positions pid = some (p, st))
    (hterm : st = PositionState.Closed ∨ st = PositionState.Liquidated)
    (s₂ : EngineState) (p₂ : Position)
    (hpos₂ : s₂.positions pid = some (p₂, PositionState.Open)) :
    closePosition cfg oracle now s pid
      = (Except.error EngineError.InvalidPositionState, s)
    ∧ liquidatePosition cfg oracle now s pid
      = (Except.error EngineError.InvalidPositionState, s)
    ∧ (closePosition cfg oracle now s₂ pid).2.positions pid
        = some (p₂, PositionState.Closed)
    ∧ (liquidatePosition cfg oracle now s₂ pid).2.positions pid
        = some (p₂, PositionState.Liquidated)
    ∧ PositionState.Closed ≠ PositionState.Liquidated := by
  refine ⟨?_, ?_, ?_, ?_, by simp⟩
  · rcases hterm with h | h <;> subst h <;> simp [closePosition, hpos]
  · rcases hterm with h | h <;> subst h <;> simp [liquidatePosition, hpos]
  · simp only [closePosition, hpos₂]
    split <;> simp [setFun]
  · simp only [liquidatePosition, hpos₂]
    split
    · split <;> simp [setFun]
    · simp [setFun]

/-- Witness for C5: re-closing or re-liquidating the already-closed test
position fails and changes nothing; on the open test position the two
operations reach their two distinct terminal states. -/
theorem terminal_state_idempotence_witness :
    (closedState.positions 0 = some (testPosition, PositionState.Closed)
      ∧ testState.positions 0 = some (testPosition, PositionState.Open))
    ∧ (closePosition zeroStrategies (daiEthOracle 3872) 1 closedState 0
        = (Except.error EngineError.InvalidPositionState, closedState)
      ∧ liquidatePosition zeroStrategies (daiEthOracle 3872) 1 closedState 0
        = (Except.error EngineError.InvalidPositionState, closedState)
      ∧ (closePosition zeroStrategies (daiEthOracle 3872) 1 testState 0).2.positions 0
          = some (testPosition, PositionState.Closed)
      ∧ (liquidatePosition zeroStrategies (daiEthOracle 3872) 1 testState 0).2.positions 0
          = some (testPosition, PositionState.Liquidated)
      ∧ PositionState.Closed ≠ PositionState.Liquidated) :=
  ⟨⟨rfl, rfl⟩,
    terminal_state_idempotence zeroStrategies (daiEthOracle 3872) 1 closedState 0
      testPosition PositionState.Closed rfl (Or.inl rfl) testState testPosition rfl⟩

/-- Zero strategies except a 1% fee on collateral split 50/50 between
governance and insurance (the fee test's configuration). -/
def feeStrategies : Strategies :=
  { zeroStrategies with
    calculate_fees := fun position => position.collateral / 100
    split_fees := fun fees => (fees / 2, fees / 2) }

/-- C6: a solvent profitable close under a fee strategy returning f and a
50/50 split pays the trader the unrealized profit minus f and credits exactly
f/2 to the governance pool and f/2 to the insurance pool for the collateral
token (zero interest, as in the scenario the claim is drawn from). -/
theorem close_position_fees_on_profit
    (cfg : Strategies) (oracle : Oracle) (now : Nat) (s : EngineState)
    (pid : PositionId) (p : Position)
    (hpos : s.positions pid = some (p, PositionState.Open))
    (hsolv : -(unrealizedPL oracle now p) < p.collateral)
    (hprofit : 0 < unrealizedPL oracle now p)
    (hf : 0 ≤ cfg.calculate_fees p)
    (hsplit : cfg.split_fees (cfg.calculate_fees p)
        = (cfg.calculate_fees p / 2, cfg.calculate_fees p / 2))
    (hrate : cfg.calculate_interest_rate p.src_token p.dst_token p.collateral
        p.principal = 0) :
    (closePosition cfg oracle now s pid).1
      = Except.ok (unrealizedPL oracle now p - cfg.calculate_fees p, 0)
    ∧ (closePosition cfg oracle now s pid).2.governance_pool p.collateral_token
        = s.governance_pool p.collateral_token + cfg.calculate_fees p / 2
    ∧ (closePosition cfg oracle now s pid).2.insurance_pool p.collateral_token
        = s.insurance_pool p.collateral_token + cfg.calculate_fees p / 2 := by
  have hint : calculateInterest cfg now p = 0 := by
    rw [calculateInterest, hrate]; ring
  simp only [closePosition, hpos, if_pos hsolv, hint, sub_zero, hsplit]
  rcases eq_or_lt_of_le hf with h0 | hfpos
  · rw [← h0]
    norm_num
  · simp only [if_pos hfpos, setFun_same]
    simp

/-- Witness for C6: the 10% profit scenario with a 1% fee on collateral
(f = 1) split 50/50: the trader nets 100 − 1 and each pool gains 1/2. -/
theorem close_position_fees_on_profit_witness :
    (testState.positions 0 = some (testPosition, PositionState.Open)
      ∧ 0 < unrealizedPL (daiEthOracle 4840) 1 testPosition
      ∧ feeStrategies.split_fees (feeStrategies.calculate_fees testPosition)
          = (feeStrategies.calculate_fees testPosition / 2,
             feeStrategies.calculate_fees testPosition / 2))
    ∧ ((closePosition feeStrategies (daiEthOracle 4840) 1 testState 0).1
        = Except.ok (unrealizedPL (daiEthOracle 4840) 1 testPosition
            - feeStrategies.calculate_fees testPosition, 0)
      ∧ (closePosition feeStrategies (daiEthOracle 4840) 1 testState 0).2.governance_pool
            testPosition.collateral_token
          = testState.governance_pool testPosition.collateral_token
            + feeStrategies.calculate_fees testPosition / 2
      ∧ (closePosition feeStrategies (daiEthOracle 4840) 1 testState 0).2.insurance_pool
            testPosition.collateral_token
          = testState.insurance_pool testPosition.collateral_token
            + feeStrategies.calculate_fees testPosition / 2) :=
  ⟨⟨rfl,
    by norm_num [unrealizedPL, testPosition, daiEthOracle, dai_ne_eth],
    rfl⟩,
    close_position_fees_on_profit feeStrategies (daiEthOracle 4840) 1 testState 0
      testPosition rfl
      (by norm_num [unrealizedPL, testPosition, daiEthOracle, dai_ne_eth])
      (by norm_num [unrealizedPL, testPosition, daiEthOracle, dai_ne_eth])
      (by norm_num [feeStrategies, zeroStrategies, testPosition])
      rfl rfl⟩

/-- Zero strategies except a fixed 3% annualized interest rate (the interest
test's configuration). -/
def interestStrategies : Strategies :=
  { zeroStrategies with calculate_interest_rate := fun _ _ _ _ => 3 / 100 }

/-- C7: a solvent close with annualized rate i deducts exactly
`i * principal * elapsed_fraction_of_year` from the trader's P&L and credits
exactly that amount to the vault for the collateral token, leaving insurance
and governance pools unchanged when fees are zero. -/
theorem close_position_interest_accrual
    (cfg : Strategies) (oracle : Oracle) (now : Nat) (s : EngineState)
    (pid : PositionId) (p : Position) (i : ℚ)
    (hpos : s.positions pid = some (p, PositionState.Open))
    (hfee : cfg.calculate_fees p = 0)
    (hrate : cfg.calculate_interest_rate p.src_token p.dst_token p.collateral
        p.principal = i)
    (hsolv : -(unrealizedPL oracle now p) < p.collateral) :
    (closePosition cfg oracle now s pid).1
      = Except.ok (unrealizedPL oracle now p
          - i * p.principal * elapsedYearFraction p.open_tick now, 0)
    ∧ (closePosition cfg oracle now s pid).2.vaults p.collateral_token
        = s.vaults p.collateral_token
          + i * p.principal * elapsedYearFraction p.open_tick now
    ∧ (closePosition cfg oracle now s pid).2.insurance_pool p.collateral_token
        = s.insurance_pool p.collateral_token
    ∧ (closePosition cfg oracle now s pid).2.governance_pool p.collateral_token
        = s.governance_pool p.collateral_token := by
  have hint : calculateInterest cfg now p
      = i * p.principal * elapsedYearFraction p.open_tick now := by
    rw [calculateInterest, hrate]
  simp only [closePosition, hpos, if_pos hsolv, hfee, hint, sub_zero]
  simp [setFun]

/-- Witness for C7: the 10% profit scenario at 3% annual interest held for one
hourly tick: the trader nets 100 − 0.03·1000/8760 and the vault earns that
interest. -/
theorem close_position_interest_accrual_witness :
    (testState.positions 0 = some (testPosition, PositionState.Open)
      ∧ interestStrategies.calculate_interest_rate testPosition.src_token
          testPosition.dst_token testPosition.collateral testPosition.principal
          = 3 / 100
      ∧ -(unrealizedPL (daiEthOracle 4840) 1 testPosition)
          < testPosition.collateral)
    ∧ ((closePosition interestStrategies (daiEthOracle 4840) 1 testState 0).1
        = Except.ok (unrealizedPL (daiEthOracle 4840) 1 testPosition
            - 3 / 100 * testPosition.principal * elapsedYearFraction
                testPosition.open_tick 1, 0)
      ∧ (closePosition interestStrategies (daiEthOracle 4840) 1 testState 0).2.vaults
            testPosition.collateral_token
          = testState.vaults testPosition.collateral_token
            + 3 / 100 * testPosition.principal * elapsedYearFraction
                testPosition.open_tick 1
      ∧ (closePosition interestStrategies (daiEthOracle 4840) 1 testState 0).2.insurance_pool
            testPosition.collateral_token
          = testState.insurance_pool testPosition.collateral_token
      ∧ (closePosition interestStrategies (daiEthOracle 4840) 1 testState 0).2.governance_pool
            testPosition.collateral_token
          = testState.governance_pool testPosition.collateral_token) :=
  ⟨⟨rfl, rfl,
    by norm_num [unrealizedPL, testPosition, daiEthOracle, dai_ne_eth]⟩,
    close_position_interest_accrual interestStrategies (daiEthOracle 4840) 1
      testState 0 testPosition (3 / 100) rfl rfl rfl
      (by norm_num [unrealizedPL, testPosition, daiEthOracle, dai_ne_eth])⟩

/-- C8: `can_liquidate_position` is a pure predicate: whatever the engine
state, the position id and the answer, it returns the state — ledgers and
position states — exactly as it was. -/
theorem can_liquidate_position_pure
    (cfg : Strategies) (oracle : Oracle) (now : Nat) (s : EngineState)
    (pid : PositionId) :
    (canLiquidatePosition cfg oracle now s pid).2 = s := by
  unfold canLiquidatePosition
  split <;> rfl

/-!
## Unfolding equations for the driver

One-step characterisations of `sweepPositions`, `tickTraders` and `runAux`,
used both by the shape soundness lemmas and by the frame statements. -/

theorem sweep_cons_err (cfg : Strategies) (oracle : Oracle) (liq : LiqFn)
    (now i : Nat) (pid : PositionId) (rest : List PositionId)
    (tr : TraderState) (e : EngineState)
    (hc : (canLiquidatePosition cfg oracle now e pid).1 = none) :
    sweepPositions cfg oracle liq now i (pid :: rest) tr e = (none, []) := by
  simp only [sweepPositions, hc]

theorem sweep_cons_false (cfg : Strategies) (oracle : Oracle) (liq : LiqFn)
    (now i : Nat) (pid : PositionId) (rest : List PositionId)
    (tr : TraderState) (e : EngineState)
    (hc : (canLiquidatePosition cfg oracle now e pid).1 = some false) :
    sweepPositions cfg oracle liq now i (pid :: rest) tr e
      = ((sweepPositions cfg oracle liq now i rest tr e).1,
         SimEvent.check i pid false
           :: (sweepPositions cfg oracle liq now i rest tr e).2) := by
  simp only [sweepPositions, hc]

theorem sweep_cons_true (cfg : Strategies) (oracle : Oracle) (liq : LiqFn)
    (now i : Nat) (pid : PositionId) (rest : List PositionId)
    (tr : TraderState) (e : EngineState) (p : Position) (st : PositionState)
    (tpl lpl : ℚ) (e₁ : EngineState)
    (hc : (canLiquidatePosition cfg oracle now e pid).1 = some true)
    (hp : e.positions pid = some (p, st))
    (hl : liq now e pid = (Except.ok (tpl, lpl), e₁)) :
    sweepPositions cfg oracle liq now i (pid :: rest) tr e
      = ((sweepPositions cfg oracle liq now i rest
            (creditTrader tr p.owed_token tpl) e₁).1,
         SimEvent.check i pid true :: SimEvent.liquidate i pid
           :: (sweepPositions cfg oracle liq now i rest
                (creditTrader tr p.owed_token tpl) e₁).2) := by
  simp only [sweepPositions, hc, hp, hl]

theorem tick_cons (cfg : Strategies) (oracle : Oracle) (trade : TradeFn)
    (liq : LiqFn) (now i : Nat) (tr : TraderState)
    (rest : List TraderState) (e : EngineState)
    (tr₂ : TraderState) (e₂ : EngineState) (stl : List SimEvent)
    (hsw : sweepPositions cfg oracle liq now i
        (trade now i tr e).1.active_positions (trade now i tr e).1
        (trade now i tr e).2 = (some (tr₂, e₂), stl)) :
    tickTraders cfg oracle trade liq now i (tr :: rest) e
      = ((tickTraders cfg oracle trade liq now (i + 1) rest e₂).1.map
          (fun pr => (tr₂ :: pr.1, pr.2)),
         SimEvent.act i
           :: (stl ++ (tickTraders cfg oracle trade liq now (i + 1) rest e₂).2)) := by
  simp only [tickTraders, traderTurn, hsw]
  simp [List.cons_append]

theorem runAux_stop (cfg : Strategies) (oracle : Oracle) (trade : TradeFn)
    (liq : LiqFn) (fuel : Nat) (c : Clock) (trs : List TraderState)
    (e : EngineState) (hs : (Clock.step c).1 = false) :
    runAux cfg oracle trade liq (fuel + 1) c trs e
      = (some ((Clock.step c).2, trs, e), []) := by
  simp only [runAux, hs]
  rfl

theorem runAux_tick (cfg : Strategies) (oracle : Oracle) (trade : TradeFn)
    (liq : LiqFn) (fuel : Nat) (c : Clock) (trs : List TraderState)
    (e : EngineState) (trs' : List TraderState) (e' : EngineState)
    (evs : List SimEvent)
    (hs : (Clock.step c).1 = true)
    (hb : tickTraders cfg oracle trade liq (Clock.step c).2.time 0 trs e
        = (some (trs', e'), evs)) :
    runAux cfg oracle trade liq (fuel + 1) c trs e
      = ((runAux cfg oracle trade liq fuel (Clock.step c).2 trs' e').1,
         SimEvent.tick (Clock.step c).2.time
           :: (evs ++ (runAux cfg oracle trade liq fuel (Clock.step c).2 trs' e').2)) := by
  simp only [runAux, hs, hb]
  rfl

/-!
## Claim-side description of the driver's control flow

The following relations transcribe the claimed ordering discipline of
`Simulation.run` (spec §5): tick first, traders in registration order, each
acting and then having exactly its own active positions checked in order,
eligible ones liquidated on the spot. -/

/-- Claim-side: one trader's liquidation pass over a list of its own active
positions.  Positions are checked one after another in the list's order; a
check answering false changes nothing; a check answering true is immediately
followed by a liquidation of that same position through the engine, whose
trader P&L is credited to the trader's liquidity for the position's owed
token before the next check. -/
inductive SweepShape (cfg : Strategies) (oracle : Oracle) (liq : LiqFn)
    (now i : Nat) :
    List PositionId → TraderState → EngineState →
    TraderState → EngineState → List SimEvent → Prop where
  | nil (tr : TraderState) (e : EngineState) :
      SweepShape cfg oracle liq now i [] tr e tr e []
  | not_eligible (pid : PositionId) (rest : List PositionId)
      (tr : TraderState) (e : EngineState) (tr' : TraderState)
      (e' : EngineState) (tl : List SimEvent) :
      (canLiquidatePosition cfg oracle now e pid).1 = some false →
      SweepShape cfg oracle liq now i rest tr e tr' e' tl →
      SweepShape cfg oracle liq now i (pid :: rest) tr e tr' e'
        (SimEvent.check i pid false :: tl)
  | eligible (pid : PositionId) (rest : List PositionId) (tr : TraderState)
      (e : EngineState) (p : Position) (st : PositionState) (tpl lpl : ℚ)
      (e₁ : EngineState) (tr' : TraderState) (e' : EngineState)
      (tl : List SimEvent) :
      (canLiquidatePosition cfg oracle now e pid).1 = some true →
      e.positions pid = some (p, st) →
      liq now e pid = (Except.ok (tpl, lpl), e₁) →
      SweepShape cfg oracle liq now i rest (creditTrader tr p.owed_token tpl)
        e₁ tr' e' tl →
      SweepShape cfg oracle liq now i (pid :: rest) tr e tr' e'
        (SimEvent.check i pid true :: SimEvent.liquidate i pid :: tl)

/-- Claim-side: the traders take their turns in registration order.  Trader i
acts first (`trade`), then exactly its own active positions are swept, and
only then does trader i+1's turn begin from the engine state the sweep left
behind. -/
inductive TraderSeq (cfg : Strategies) (oracle : Oracle) (trade : TradeFn)
    (liq : LiqFn) (now : Nat) :
    Nat → List TraderState → EngineState →
    List TraderState → EngineState → List SimEvent → Prop where
  | nil (i : Nat) (e : EngineState) :
      TraderSeq cfg oracle trade liq now i [] e [] e []
  | cons (i : Nat) (tr : TraderState) (rest : List TraderState)
      (e : EngineState) (tr₂ : TraderState) (e₂ : EngineState)
      (stl : List SimEvent) (rest' : List TraderState) (e₃ : EngineState)
      (ttl : List SimEvent) :
      SweepShape cfg oracle liq now i (trade now i tr e).1.active_positions
        (trade now i tr e).1 (trade now i tr e).2 tr₂ e₂ stl →
      TraderSeq cfg oracle trade liq now (i + 1) rest e₂ rest' e₃ ttl →
      TraderSeq cfg oracle trade liq now i (tr :: rest) e (tr₂ :: rest') e₃
        (SimEvent.act i :: (stl ++ ttl))

/-- Claim-side: a full run.  Each loop iteration first advances the clock;
while the clock still runs, the traders then take their turns in registration
order at the advanced tick and the run continues; once the clock is exhausted
the run stops with no further events. -/
inductive RunShape (cfg : Strategies) (oracle : Oracle) (trade : TradeFn)
    (liq : LiqFn) :
    Clock → List TraderState → EngineState →
    Clock × List TraderState × EngineState → List SimEvent → Prop where
  | stop (c : Clock) (trs : List TraderState) (e : EngineState) :
      (Clock.step c).1 = false →
      RunShape cfg oracle trade liq c trs e ((Clock.step c).2, trs, e) []
  | tick (c : Clock) (trs : List TraderState) (e : EngineState)
      (trs' : List TraderState) (e' : EngineState) (tl : List SimEvent)
      (fin : Clock × List TraderState × EngineState) (tl' : List SimEvent) :
      (Clock.step c).1 = true →
      TraderSeq cfg oracle trade liq (Clock.step c).2.time 0 trs e trs' e' tl →
      RunShape cfg oracle trade liq (Clock.step c).2 trs' e' fin tl' →
      RunShape cfg oracle trade liq c trs e fin
        (SimEvent.tick (Clock.step c).2.time :: (tl ++ tl'))

/-- A successful liquidation sweep follows the claimed per-position
discipline. -/
theorem sweepPositions_sound (cfg : Strategies) (oracle : Oracle)
    (liq : LiqFn) (now i : Nat) :
    ∀ (pids : List PositionId) (tr : TraderState) (e : EngineState)
      (tr' : TraderState) (e' : EngineState) (tl : List SimEvent),
      sweepPositions cfg oracle liq now i pids tr e = (some (tr', e'), tl) →
      SweepShape cfg oracle liq now i pids tr e tr' e' tl := by
  intro pids
  induction pids with
  | nil =>
      intro tr e tr' e' tl h
      simp only [sweepPositions, Prod.mk.injEq, Option.some.injEq] at h
      obtain ⟨⟨h1, h2⟩, h3⟩ := h
      subst h1; subst h2; subst h3
      exact SweepShape.nil tr e
  | cons pid rest ih =>
      intro tr e tr' e' tl h
      rcases hc : (canLiquidatePosition cfg oracle now e pid).1 with _ | b
      · rw [sweep_cons_err cfg oracle liq now i pid rest tr e hc] at h
        simp at h
      · cases b
        · rw [sweep_cons_false cfg oracle liq now i pid rest tr e hc] at h
          rcases hk : sweepPositions cfg oracle liq now i rest tr e
            with ⟨res, ktl⟩
          rw [hk] at h
          simp only [Prod.mk.injEq] at h
          obtain ⟨h1, h2⟩ := h
          subst h2
          exact SweepShape.not_eligible pid rest tr e tr' e' ktl hc
            (ih tr e tr' e' ktl (by rw [hk, h1]))
        · rcases hp : e.positions pid with _ | pr
          · simp only [sweepPositions, hc, hp] at h
            simp at h
          · rcases hl : liq now e pid with ⟨res, e₁⟩
            rcases res with err | tlpl
            · simp only [sweepPositions, hc, hp, hl] at h
              simp at h
            · rcases tlpl with ⟨tpl, lpl⟩
              rcases pr with ⟨p, st⟩
              rw [sweep_cons_true cfg oracle liq now i pid rest tr e p st
                tpl lpl e₁ hc hp hl] at h
              rcases hk : sweepPositions cfg oracle liq now i rest
                (creditTrader tr p.owed_token tpl) e₁ with ⟨res2, ktl⟩
              rw [hk] at h
              simp only [Prod.mk.injEq] at h
              obtain ⟨h1, h2⟩ := h
              subst h2
              exact SweepShape.eligible pid rest tr e p st tpl lpl e₁ tr' e'
                ktl hc hp hl
                (ih (creditTrader tr p.owed_token tpl) e₁ tr' e' ktl
                  (by rw [hk, h1]))

/-- A successful per-tick body follows the claimed per-trader discipline. -/
theorem tickTraders_sound (cfg : Strategies) (oracle : Oracle)
    (trade : TradeFn) (liq : LiqFn) (now : Nat) :
    ∀ (trs : List TraderState) (i : Nat) (e : EngineState)
      (trs' : List TraderState) (e' : EngineState) (tl : List SimEvent),
      tickTraders cfg oracle trade liq now i trs e = (some (trs', e'), tl) →
      TraderSeq cfg oracle trade liq now i trs e trs' e' tl := by
  intro trs
  induction trs with
  | nil =>
      intro i e trs' e' tl h
      simp only [tickTraders, Prod.mk.injEq, Option.some.injEq] at h
      obtain ⟨⟨h1, h2⟩, h3⟩ := h
      subst h1; subst h2; subst h3
      exact TraderSeq.nil i e
  | cons tr rest ih =>
      intro i e trs' e' tl h
      rcases hsw : sweepPositions cfg oracle liq now i
          (trade now i tr e).1.active_positions (trade now i tr e).1
          (trade now i tr e).2 with ⟨sres, stl⟩
      rcases sres with _ | tr2e2
      · simp only [tickTraders, traderTurn, hsw] at h
        simp at h
      · rcases tr2e2 with ⟨tr₂, e₂⟩
        rw [tick_cons cfg oracle trade liq now i tr rest e tr₂ e₂ stl hsw] at h
        rcases hk : tickTraders cfg oracle trade liq now (i + 1) rest e₂
          with ⟨kres, ktl⟩
        rw [hk] at h
        rcases kres with _ | kr
        · simp at h
        · rcases kr with ⟨rest', e₃⟩
          simp only [Option.map_some', Prod.mk.injEq, Option.some.injEq] at h
          obtain ⟨⟨h1, h2⟩, h3⟩ := h
          subst h1; subst h2; subst h3
          exact TraderSeq.cons i tr rest e tr₂ e₂ stl rest' e₃ ktl
            (sweepPositions_sound cfg oracle liq now i _ _ _ _ _ _ hsw)
            (ih (i + 1) e₂ rest' e₃ ktl (by rw [hk]))

/-- A successful run follows the claimed per-tick discipline. -/
theorem runAux_sound (cfg : Strategies) (oracle : Oracle) (trade : TradeFn)
    (liq : LiqFn) :
    ∀ (fuel : Nat) (c : Clock) (trs : List TraderState) (e : EngineState)
      (fin : Clock × List TraderState × EngineState) (tl : List SimEvent),
      runAux cfg oracle trade liq fuel c trs e = (some fin, tl) →
      RunShape cfg oracle trade liq c trs e fin tl := by
  intro fuel
  induction fuel with
  | zero =>
      intro c trs e fin tl h
      simp [runAux] at h
  | succ fuel ih =>
      intro c trs e fin tl h
      rcases hs : (Clock.step c).1 with _ | _
      · rw [runAux_stop cfg oracle trade liq fuel c trs e hs] at h
        simp only [Prod.mk.injEq, Option.some.injEq] at h
        obtain ⟨h1, h2⟩ := h
        subst h2
        rw [← h1]
        exact RunShape.stop c trs e hs
      · rcases hb : tickTraders cfg oracle trade liq (Clock.step c).2.time 0
            trs e with ⟨bres, btl⟩
        rcases bres with _ | b2
        · simp only [runAux, hs, hb] at h
          simp at h
        · rcases b2 with ⟨trs', e'⟩
          rw [runAux_tick cfg oracle trade liq fuel c trs e trs' e' btl hs hb]
            at h
          rcases hk : runAux cfg oracle trade liq fuel (Clock.step c).2 trs' e'
            with ⟨kres, ktl⟩
          rw [hk] at h
          simp only [Prod.mk.injEq] at h
          obtain ⟨h1, h2⟩ := h
          subst h2
          exact RunShape.tick c trs e trs' e' btl fin ktl hs
            (tickTraders_sound cfg oracle trade liq (Clock.step c).2.time trs 0
              e trs' e' btl hb)
            (ih (Clock.step c).2 trs' e' fin ktl (by rw [hk, h1]))

/-- A trader policy that does nothing (the decision policies are external
collaborators, spec §1). -/
def idTrade : TradeFn := fun _ _ tr e => (tr, e)

/-- A trader with no liquidity and no open positions. -/
def emptyTrader : TraderState :=
  { liquidity := fun _ => 0
    active_positions := [] }

/-- C9: on every tick of `Simulation.run`, the clock advances first, then the
traders act in fixed registration order, and immediately after a trader acts
exactly that trader's own active positions are checked with
`can_liquidate_position` in order, `liquidate_position` being called exactly
on those for which the check answers true, before the next trader's turn
begins: every successful run factors through `RunShape`. -/
theorem simulation_tick_order
    (cfg : Strategies) (oracle : Oracle) (trade : TradeFn) (c : Clock)
    (trs : List TraderState) (e : EngineState)
    (fin : Clock × List TraderState × EngineState) (tl : List SimEvent)
    (h : simRun cfg oracle trade (engineLiq cfg oracle) c trs e
        = (some fin, tl)) :
    RunShape cfg oracle trade (engineLiq cfg oracle) c trs e fin tl :=
  runAux_sound cfg oracle trade (engineLiq cfg oracle) (c.horizon + 1) c trs e
    fin tl h

/-- Witness for C9: a two-tick horizon with one trader holding no positions
runs to completion with the claimed trace `[tick 1, act 0]`. -/
theorem simulation_tick_order_witness :
    simRun zeroStrategies (daiEthOracle 3872) idTrade
        (engineLiq zeroStrategies (daiEthOracle 3872)) (Clock.mk 2 0)
        [emptyTrader] testState
      = (some (Clock.mk 2 2, [emptyTrader], testState),
         [SimEvent.tick 1, SimEvent.act 0])
    ∧ RunShape zeroStrategies (daiEthOracle 3872) idTrade
        (engineLiq zeroStrategies (daiEthOracle 3872)) (Clock.mk 2 0)
        [emptyTrader] testState (Clock.mk 2 2, [emptyTrader], testState)
        [SimEvent.tick 1, SimEvent.act 0] :=
  ⟨rfl,
    simulation_tick_order zeroStrategies (daiEthOracle 3872) idTrade
      (Clock.mk 2 0) [emptyTrader] testState
      (Clock.mk 2 2, [emptyTrader], testState)
      [SimEvent.tick 1, SimEvent.act 0] rfl⟩

/-!
## Discarding the liquidator's P&L

`Simulation.run` binds `trader_pl, liquidator_pl` and uses only `trader_pl`
(`simulation.py` lines 36-38); the `liquidator_pl` component is dead.  This is
expressed by comparing a run against the same run with every liquidation
result's second component replaced. -/

/-- Two engine liquidation results that agree on everything except the
returned `liquidation_pl` component. -/
def agreeExceptLiquidationPl
    (r₁ r₂ : Except EngineError (ℚ × ℚ) × EngineState) : Prop :=
  r₁.2 = r₂.2 ∧
    match r₁.1, r₂.1 with
    | Except.ok a, Except.ok b => a.1 = b.1
    | Except.error a, Except.error b => a = b
    | _, _ => False

/-- The same liquidate operation with the returned `liquidation_pl` zeroed. -/
def zeroLiquidationPl (liq : LiqFn) : LiqFn := fun t e pid =>
  match liq t e pid with
  | (Except.ok a, e') => (Except.ok (a.1, 0), e')
  | r => r

theorem zeroLiquidationPl_agree (liq : LiqFn) (t : Nat) (e : EngineState)
    (pid : PositionId) :
    agreeExceptLiquidationPl (liq t e pid) (zeroLiquidationPl liq t e pid) := by
  rcases h : liq t e pid with ⟨res, e'⟩
  rcases res with err | a
  · simp [zeroLiquidationPl, agreeExceptLiquidationPl, h]
  · simp [zeroLiquidationPl, agreeExceptLiquidationPl, h]

theorem runAux_tick_err (cfg : Strategies) (oracle : Oracle) (trade : TradeFn)
    (liq : LiqFn) (fuel : Nat) (c : Clock) (trs : List TraderState)
    (e : EngineState) (evs : List SimEvent)
    (hs : (Clock.step c).1 = true)
    (hb : tickTraders cfg oracle trade liq (Clock.step c).2.time 0 trs e
        = (none, evs)) :
    runAux cfg oracle trade liq (fuel + 1) c trs e
      = (none, SimEvent.tick (Clock.step c).2.time :: evs) := by
  simp only [runAux, hs, hb]
  rfl

theorem sweep_congr (cfg : Strategies) (oracle : Oracle) (liq liq₂ : LiqFn)
    (now i : Nat)
    (hagree : ∀ t e pid,
      agreeExceptLiquidationPl (liq t e pid) (liq₂ t e pid)) :
    ∀ (pids : List PositionId) (tr : TraderState) (e : EngineState),
      sweepPositions cfg oracle liq now i pids tr e
        = sweepPositions cfg oracle liq₂ now i pids tr e := by
  intro pids
  induction pids with
  | nil => intro tr e; rfl
  | cons pid rest ih =>
      intro tr e
      rcases hc : (canLiquidatePosition cfg oracle now e pid).1 with _ | b
      · rw [sweep_cons_err cfg oracle liq now i pid rest tr e hc,
            sweep_cons_err cfg oracle liq₂ now i pid rest tr e hc]
      · cases b
        · rw [sweep_cons_false cfg oracle liq now i pid rest tr e hc,
              sweep_cons_false cfg oracle liq₂ now i pid rest tr e hc, ih]
        · rcases hp : e.positions pid with _ | pr
          · simp only [sweepPositions, hc, hp]
          · have ha := hagree now e pid
            rcases hl1 : liq now e pid with ⟨res1, f1⟩
            rcases hl2 : liq₂ now e pid with ⟨res2, f2⟩
            rw [hl1, hl2] at ha
            rcases res1 with err1 | a1 <;> rcases res2 with err2 | a2 <;>
              simp only [agreeExceptLiquidationPl] at ha
            · simp only [sweepPositions, hc, hp, hl1, hl2]
            · exact ha.2.elim
            · exact ha.2.elim
            · obtain ⟨h2, h1⟩ := ha
              subst h2
              rcases pr with ⟨p, st⟩
              rcases a1 with ⟨t1, l1⟩
              rcases a2 with ⟨t2, l2⟩
              simp only at h1
              subst h1
              rw [sweep_cons_true cfg oracle liq now i pid rest tr e p st
                  t1 l1 f1 hc hp hl1,
                sweep_cons_true cfg oracle liq₂ now i pid rest tr e p st
                  t1 l2 f1 hc hp hl2, ih]

theorem tick_congr (cfg : Strategies) (oracle : Oracle) (trade : TradeFn)
    (liq liq₂ : LiqFn) (now : Nat)
    (hagree : ∀ t e pid,
      agreeExceptLiquidationPl (liq t e pid) (liq₂ t e pid)) :
    ∀ (trs : List TraderState) (i : Nat) (e : EngineState),
      tickTraders cfg oracle trade liq now i trs e
        = tickTraders cfg oracle trade liq₂ now i trs e := by
  intro trs
  induction trs with
  | nil => intro i e; rfl
  | cons tr rest ih =>
      intro i e
      simp only [tickTraders, traderTurn]
      rw [sweep_congr cfg oracle liq liq₂ now i hagree]
      rcases hsw : sweepPositions cfg oracle liq₂ now i
          (trade now i tr e).1.active_positions (trade now i tr e).1
          (trade now i tr e).2 with ⟨sres, stl⟩
      rcases sres with _ | tr2e2
      · rfl
      · rcases tr2e2 with ⟨tr₂, e₂⟩
        simp only [ih]

theorem run_congr (cfg : Strategies) (oracle : Oracle) (trade : TradeFn)
    (liq liq₂ : LiqFn)
    (hagree : ∀ t e pid,
      agreeExceptLiquidationPl (liq t e pid) (liq₂ t e pid)) :
    ∀ (fuel : Nat) (c : Clock) (trs : List TraderState) (e : EngineState),
      runAux cfg oracle trade liq fuel c trs e
        = runAux cfg oracle trade liq₂ fuel c trs e := by
  intro fuel
  induction fuel with
  | zero => intro c trs e; rfl
  | succ fuel ih =>
      intro c trs e
      rcases hs : (Clock.step c).1 with _ | _
      · rw [runAux_stop cfg oracle trade liq fuel c trs e hs,
            runAux_stop cfg oracle trade liq₂ fuel c trs e hs]
      · rcases hb : tickTraders cfg oracle trade liq (Clock.step c).2.time 0
            trs e with ⟨bres, btl⟩
        have hb2 := hb
        rw [tick_congr cfg oracle trade liq liq₂ (Clock.step c).2.time hagree]
          at hb2
        rcases bres with _ | b2
        · rw [runAux_tick_err cfg oracle trade liq fuel c trs e btl hs hb,
              runAux_tick_err cfg oracle trade liq₂ fuel c trs e btl hs hb2]
        · rcases b2 with ⟨trs', e'⟩
          rw [runAux_tick cfg oracle trade liq fuel c trs e trs' e' btl hs hb,
              runAux_tick cfg oracle trade liq₂ fuel c trs e trs' e' btl hs hb2,
              ih]

/-- A liquidate operation returning a fixed result, for exercising the driver
independently of the engine. -/
def constLiq : LiqFn := fun _ e _ => (Except.ok ((5 : ℚ), (7 : ℚ)), e)

/-- C10: after every liquidation inside `Simulation.run`, the driver's only
state change outside the engine is crediting the returned trader P&L to the
trader's liquidity for the position's owed token — the trader's other
balances and its position list are untouched — and the returned
`liquidation_pl` is discarded: zeroing it in every liquidate result leaves
the whole run (final states and trace) unchanged. -/
theorem liquidation_pl_discarded
    (cfg : Strategies) (oracle : Oracle) (trade : TradeFn) (liq : LiqFn)
    (now i : Nat) (pid : PositionId) (rest : List PositionId)
    (tr : TraderState) (e : EngineState) (p : Position) (st : PositionState)
    (tpl lpl : ℚ) (e₁ : EngineState) (cur : Currency) (fuel : Nat)
    (c : Clock) (trs : List TraderState) (es : EngineState)
    (hc : (canLiquidatePosition cfg oracle now e pid).1 = some true)
    (hp : e.positions pid = some (p, st))
    (hl : liq now e pid = (Except.ok (tpl, lpl), e₁))
    (hcur : cur ≠ p.owed_token) :
    sweepPositions cfg oracle liq now i (pid :: rest) tr e
      = ((sweepPositions cfg oracle liq now i rest
            (creditTrader tr p.owed_token tpl) e₁).1,
         SimEvent.check i pid true :: SimEvent.liquidate i pid
           :: (sweepPositions cfg oracle liq now i rest
                (creditTrader tr p.owed_token tpl) e₁).2)
    ∧ (creditTrader tr p.owed_token tpl).liquidity p.owed_token
        = tr.liquidity p.owed_token + tpl
    ∧ (creditTrader tr p.owed_token tpl).liquidity cur = tr.liquidity cur
    ∧ (creditTrader tr p.owed_token tpl).active_positions = tr.active_positions
    ∧ runAux cfg oracle trade liq fuel c trs es
        = runAux cfg oracle trade (zeroLiquidationPl liq) fuel c trs es := by
  refine ⟨sweep_cons_true cfg oracle liq now i pid rest tr e p st tpl lpl e₁
      hc hp hl, ?_, ?_, rfl, ?_⟩
  · simp [creditTrader, setFun]
  · simp [creditTrader, setFun_other _ _ _ _ hcur]
  · exact run_congr cfg oracle trade liq (zeroLiquidationPl liq)
      (fun t e' pid' => zeroLiquidationPl_agree liq t e' pid') fuel c trs es

/-- Witness for C10: liquidating the eligible test position through a fixed
liquidate result credits 5 to the trader's DAI liquidity and nothing else;
zeroing the liquidator's share changes nothing about a run. -/
theorem liquidation_pl_discarded_witness :
    ((canLiquidatePosition zeroStrategies (daiEthOracle 3872) 1 testState 0).1
        = some true
      ∧ testState.positions 0 = some (testPosition, PositionState.Open)
      ∧ constLiq 1 testState 0 = (Except.ok ((5 : ℚ), (7 : ℚ)), testState)
      ∧ ("usdc" : Currency) ≠ testPosition.owed_token)
    ∧ (sweepPositions zeroStrategies (daiEthOracle 3872) constLiq 1 0 [0]
          emptyTrader testState
        = ((sweepPositions zeroStrategies (daiEthOracle 3872) constLiq 1 0 []
              (creditTrader emptyTrader testPosition.owed_token 5)
              testState).1,
           SimEvent.check 0 0 true :: SimEvent.liquidate 0 0
             :: (sweepPositions zeroStrategies (daiEthOracle 3872) constLiq 1 0
                  [] (creditTrader emptyTrader testPosition.owed_token 5)
                  testState).2)
      ∧ (creditTrader emptyTrader testPosition.owed_token 5).liquidity
            testPosition.owed_token
          = emptyTrader.liquidity testPosition.owed_token + 5
      ∧ (creditTrader emptyTrader testPosition.owed_token 5).liquidity "usdc"
          = emptyTrader.liquidity "usdc"
      ∧ (creditTrader emptyTrader testPosition.owed_token 5).active_positions
          = emptyTrader.active_positions
      ∧ runAux zeroStrategies (daiEthOracle 3872) idTrade constLiq 1
            (Clock.mk 2 0) [emptyTrader] testState
          = runAux zeroStrategies (daiEthOracle 3872) idTrade
              (zeroLiquidationPl constLiq) 1 (Clock.mk 2 0) [emptyTrader]
              testState) :=
  ⟨⟨by norm_num [canLiquidatePosition, testState, testPosition, unrealizedPL,
      daiEthOracle, zeroStrategies, dai_ne_eth],
    rfl, rfl, by decide⟩,
    liquidation_pl_discarded zeroStrategies (daiEthOracle 3872) idTrade
      constLiq 1 0 0 [] emptyTrader testState testPosition PositionState.Open
      5 7 testState "usdc" 1 (Clock.mk 2 0) [emptyTrader] testState
      (by norm_num [canLiquidatePosition, testState, testPosition,
        unrealizedPL, daiEthOracle, zeroStrategies, dai_ne_eth])
      rfl rfl (by decide)⟩
